import Mathlib

set_option maxRecDepth 10000
set_option linter.unusedVariables false

/-!
Shallow embedding of `src/KitaevHamiltonianBlock.py` (repository rht/python-syk)
and the parts of its collaborator `BasisState` that the file imports (the module
`BasisState.py` is not in `src/`, so those parts are modelled from the spec).

Conventions of the embedding:
* Python runtime failures (AssertionError from `assert`, NameError from an
  undefined name, AttributeError from a missing attribute, TypeError from
  calling a non-callable) are modelled with `Except PyError`.
* Machine reals/complexes are not modelled bit-for-bit; matrix entries and the
  disorder values live in an abstract commutative ring `K`, and the global
  floating-point Hamiltonian coefficient (source line 29/276:
  `1./pow(2.*N, 3./2.)*4.`) is threaded through as an abstract scalar `co : K`.
  The numpy dtype of the `np.zeros` matrix is likewise not modelled: the matrix
  is a total function `ℕ → ℕ → K`.
* Python `list` objects are modelled as `List ℕ`; the in-place mutation of a
  `BasisState` object is modelled by explicit value passing, with the aliasing
  of the Python names `ket`/`bra` (both bound to the same mutated object)
  reproduced at the corresponding places and documented there.
-/

namespace Syk

/-- Python runtime errors that the embedded code can raise. -/
inductive PyError where
  | assertionError
  | nameError
  | attributeError
  | typeError
deriving DecidableEq

/-- Dense matrix with natural-number indices, entries in `K`
(`np.zeros((dim, dim))` together with later in-place writes). -/
def Mat (K : Type) : Type := ℕ → ℕ → K

/-- Modelled from the spec: the external collaborator `DisorderParameter`
exposes a single query `elem(i,j,k,l) -> complex` (spec §6).  The complex
values live in the abstract scalar ring `K`. -/
def DisorderParameter (K : Type) : Type := ℕ → ℕ → ℕ → ℕ → K

/-- `matrix[r, c] += v` (numpy in-place accumulation into one entry). -/
def matUpdate {K : Type} [Add K] (m : Mat K) (r c : ℕ) (v : K) : Mat K :=
  fun r' c' => if r' = r ∧ c' = c then m r c + v else m r' c'

/-- Modelled from the spec: `CombinatorialRank.tuple_to_rank` (spec §4.1).
`BasisState.py` is not under `src/`; the spec fixes a combinatorial ranking
("colex or lex — must match the inverse mapping used everywhere", spec §3).
We use the colexicographic (combinadic) ranking: an ascending occupation list
`[a₀, …, a_{q-1}]` has rank `Σ i, C(aᵢ, i+1)`. -/
def occupations_to_state_number (occ : List ℕ) : ℕ :=
  (occ.enum.map (fun p => Nat.choose p.2 (p.1 + 1))).sum

/-- Greedy combinadic decoding, most significant element first: for arity
`q+1` pick the greatest `a` with `C(a, q+1) ≤ n`, then recurse on the
remainder.  Helper for `state_number_to_occupations`. -/
def stno_desc : ℕ → ℕ → List ℕ
  | _, 0 => []
  | n, q + 1 =>
    let a := Nat.findGreatest (fun a => Nat.choose a (q + 1) ≤ n) (n + q + 1)
    a :: stno_desc (n - Nat.choose a (q + 1)) q

/-- Modelled from the spec: `state_number_to_occupations(n, Q)` from the
missing `BasisState.py` — `CombinatorialRank.rank_to_tuple` (spec §4.1),
the inverse of `occupations_to_state_number`, returning the ascending
occupation list of rank `n` among `Q`-element subsets. -/
def state_number_to_occupations (n q : ℕ) : List ℕ :=
  (stno_desc n q).reverse

/-- Modelled from the spec: the external collaborator `BasisState` (spec §3,
§6): an ascending occupation list, a signed scalar coefficient that starts at
1 and accumulates sign flips, and a zero flag that is set once an operator
action violates fermionic exclusion (after which all operations are no-ops). -/
structure BasisState where
  occupations : List ℕ
  coefficient : ℤ
  zero : Bool
deriving DecidableEq

/-- Constructor from an explicit occupation list (`BasisState(indices)`). -/
def BasisState.ofIndices (indices : List ℕ) : BasisState :=
  ⟨indices, 1, false⟩

/-- Constructor from a (rank, Q) pair
(`BasisState(state_number=n, Q=Q)`). -/
def BasisState.ofStateNumber (n Q : ℕ) : BasisState :=
  ⟨state_number_to_occupations n Q, 1, false⟩

/-- `is_zero()`. -/
def BasisState.is_zero (b : BasisState) : Bool := b.zero

/-- `charge()`: the occupation count (spec glossary). -/
def BasisState.charge (b : BasisState) : ℕ := b.occupations.length

/-- `get_state_number()`: the rank of the occupation list under the fixed
combinatorial bijection (spec §3). -/
def BasisState.get_state_number (b : BasisState) : ℕ :=
  occupations_to_state_number b.occupations

/-- Modelled from the spec: fermionic sign picked up by `create`/`annihilate`
at mode `k`.  The spec only says the coefficient "accumulates sign flips"
(spec §3) and does not fix the convention; we use the parity of the number of
occupied modes above `k`.  No claim settled here depends on the convention
(only on the sign being a unit). -/
def signFactor (occ : List ℕ) (k : ℕ) : ℤ :=
  (-1) ^ (occ.filter (fun a => k < a)).length

/-- Insert `k` into an ascending list, keeping it ascending. -/
def insertAscending (k : ℕ) : List ℕ → List ℕ
  | [] => [k]
  | a :: t => if k ≤ a then k :: a :: t else a :: insertAscending k t

/-- Modelled from the spec: `annihilate(mode)` — mutates coefficient and
occupancy, and zeroes the state when the mode is not occupied (spec §6, §3). -/
def BasisState.annihilate (b : BasisState) (k : ℕ) : BasisState :=
  if b.zero then b
  else if k ∈ b.occupations then
    ⟨b.occupations.erase k, b.coefficient * signFactor b.occupations k, false⟩
  else ⟨b.occupations, 0, true⟩

/-- Modelled from the spec: `create(mode)` — mutates coefficient and
occupancy, and zeroes the state on a double occupation (spec §6, §3). -/
def BasisState.create (b : BasisState) (k : ℕ) : BasisState :=
  if b.zero then b
  else if k ∈ b.occupations then ⟨b.occupations, 0, true⟩
  else ⟨insertAscending k b.occupations, b.coefficient * signFactor b.occupations k, false⟩

/-- Source lines 8-9: `binomial(c, k) = int(binom(c, k))`.  The source
evaluates scipy's real-valued (float64) `binom` and truncates it with `int`;
for every argument pair reached in the scenarios embedded below the float64
evaluation is exact, so the embedding uses the exact binomial coefficient.
Claim C4 records the arguments at which the float64 evaluation cannot be
exact, so that `int(binom(c, k))` cannot equal `C(c, k)` there. -/
def binomial (c k : ℕ) : ℕ := Nat.choose c k

/-- Python-integer variant of `binomial`, used where the source can pass a
negative second argument (`self.Q - 2` with `Q < 2`): scipy's `binom(c, k)`
is `0.0` at a negative integer `k` (a pole of `1/Γ(k+1)`), so `int(...)` is
`0` there. -/
def binomialInt (c k : ℤ) : ℕ :=
  if 0 ≤ c ∧ 0 ≤ k then Nat.choose c.toNat k.toNat else 0

/-- Source lines 219-220: `dim() = int(binomial(N, Q))`. -/
def dim (N Q : ℕ) : ℕ := binomial N Q

/-- Attribute lookup `indices.begin()` (source lines 64 and 80): Python
`list` objects have no attribute `begin` (this is C++ iterator API left over
from the port), so the lookup raises `AttributeError` before anything else in
the enclosing method runs. -/
def list_begin (_ : List ℕ) : Except PyError ℕ :=
  .error .attributeError

/-- Source lines 61-75 (`insert_index_and_shift`).  Line 62 binds
`inserted = False`; line 64 then evaluates `indices.begin()`, which raises
`AttributeError` (Python lists have no `begin` method), so the loop of lines
65-75 is never reached and `indices` is never modified.  (Even if it were
reached, line 69 passes the builtin function `iter`, not the position, to
`indices.insert`.) -/
def insert_index_and_shift (indices : List ℕ) (i : ℕ) : Except PyError (List ℕ) := do
  let _iter ← list_begin indices
  -- lines 65-75 are unreachable; they compare and advance the local `_iter`
  -- and (line 69/75) would insert at an invalid position
  pure indices

/-- Source lines 77-84 (`shift_starting_at_index`).  Line 80 evaluates
`indices.begin()`, which raises `AttributeError`; the loop of lines 81-84 is
never reached.  The source's own comment (line 77) notes that the body never
modifies `indices` in any case: the loop only advances the local `_iter`. -/
def shift_starting_at_index (indices : List ℕ) (i : ℕ) : Except PyError (List ℕ) := do
  let _iter ← list_begin indices
  -- lines 81-84 unreachable; they never touch `indices`
  pure indices

/-- Source lines 209-217: `act_with_c_operators(i, j, k, l, ket)` computes
`c†_i c†_j c_k c_l |ket>` by mutating `ket` in place —
`ket.annihilate(l); ket.annihilate(k); ket.create(j); ket.create(i)` —
and then returns the very same (now mutated) object. -/
def act_with_c_operators (i j k l : ℕ) (ket : BasisState) : BasisState :=
  (((ket.annihilate l).annihilate k).create j).create i

/-- Source lines 39-59 (`add_term_and_state_contribution`).
Line 44 binds `ket` to a fresh `BasisState(indices)`; line 45 passes that
object to `act_with_c_operators`, which mutates it in place and returns it,
so from line 45 on the Python names `ket` and `bra` are two names for the
same mutated object.  Accordingly line 54's `ket_n = ket.get_state_number()`
reads the state number of the post-operator state — in the embedding both
`ket_n` and `bra_n` are `bra.get_state_number`.  The `assert bra_n >= 0` of
line 57 always holds (state numbers are naturals). -/
def add_term_and_state_contribution {K : Type} [CommRing K]
    (J : DisorderParameter K) (Q dm : ℕ) (i j k l : ℕ)
    (indices : List ℕ) (matrix : Mat K) : Except PyError (Mat K) :=
  let ket := BasisState.ofIndices indices
  let bra := act_with_c_operators i j k l ket
  if bra.is_zero then .ok matrix
  else if bra.charge = Q then
    let ket_n := bra.get_state_number
    let bra_n := bra.get_state_number
    if bra_n < dm then
      .ok (matUpdate matrix bra_n ket_n (J i j k l * (bra.coefficient : K)))
    else .error .assertionError
  else .error .assertionError

/-- Name resolution for the bare identifier `Q` used in
`add_hamiltonian_term_contribution` (source lines 103, 111, 127, 142, 150,
165: `state_number_to_occupations(n, Q - 2)`).  The method's scope has no
local `Q` (only `self.Q`) and the module defines no global `Q`, so Python
raises `NameError` when the argument `Q - 2` is evaluated. -/
def globalQ : Except PyError ℕ :=
  .error .nameError

/-- Source lines 86-205 (`add_hamiltonian_term_contribution`): asserts
`i < j` and `k < l`, dispatches on the overlap pattern of `{i,j}` and
`{k,l}`, and for each reduced-space rank expands an index list and calls
`add_term_and_state_contribution`.  Every branch's loop body begins by
evaluating `state_number_to_occupations(n, Q - 2)` with the bare name `Q`
(`globalQ`), so any branch whose loop runs at least once raises `NameError`
at its first iteration. -/
def add_hamiltonian_term_contribution {K : Type} [CommRing K]
    (J : DisorderParameter K) (N Q dm : ℕ) (i j k l : ℕ)
    (matrix : Mat K) : Except PyError (Mat K) :=
  if ¬ i < j then .error .assertionError
  else if ¬ k < l then .error .assertionError
  else if i = k ∧ j = l then
    -- lines 94-106
    (List.range (binomialInt ((N : ℤ) - 2) ((Q : ℤ) - 2))).foldlM (fun m n => do
      let q ← globalQ
      let indices := state_number_to_occupations n (q - 2)
      let indices ← insert_index_and_shift indices k
      let indices ← insert_index_and_shift indices l
      add_term_and_state_contribution J Q dm i j k l indices m) matrix
  else if i = k then
    -- lines 107-122
    (List.range (binomialInt ((N : ℤ) - 3) ((Q : ℤ) - 2))).foldlM (fun m n => do
      let q ← globalQ
      let indices := state_number_to_occupations n (q - 2)
      let indices ← insert_index_and_shift indices k
      let indices ←
        if j < l then do
          let indices ← shift_starting_at_index indices j
          insert_index_and_shift indices l
        else if ¬ l < j then .error .assertionError
        else do
          let indices ← insert_index_and_shift indices l
          shift_starting_at_index indices j
      add_term_and_state_contribution J Q dm i j k l indices m) matrix
  else if j = l then
    -- lines 123-138
    (List.range (binomialInt ((N : ℤ) - 3) ((Q : ℤ) - 2))).foldlM (fun m n => do
      let q ← globalQ
      let indices := state_number_to_occupations n (q - 2)
      let indices ←
        if i < k then do
          let indices ← shift_starting_at_index indices i
          insert_index_and_shift indices k
        else if ¬ k < i then .error .assertionError
        else do
          let indices ← insert_index_and_shift indices k
          shift_starting_at_index indices i
      let indices ← insert_index_and_shift indices l
      add_term_and_state_contribution J Q dm i j k l indices m) matrix
  else if i = l then
    -- lines 139-146
    (List.range (binomialInt ((N : ℤ) - 3) ((Q : ℤ) - 2))).foldlM (fun m n => do
      let q ← globalQ
      let indices := state_number_to_occupations n (q - 2)
      let indices ← insert_index_and_shift indices k
      let indices ← insert_index_and_shift indices l
      let indices ← shift_starting_at_index indices j
      add_term_and_state_contribution J Q dm i j k l indices m) matrix
  else if j = k then
    -- lines 147-154
    (List.range (binomialInt ((N : ℤ) - 3) ((Q : ℤ) - 2))).foldlM (fun m n => do
      let q ← globalQ
      let indices := state_number_to_occupations n (q - 2)
      let indices ← shift_starting_at_index indices i
      let indices ← insert_index_and_shift indices k
      let indices ← insert_index_and_shift indices l
      add_term_and_state_contribution J Q dm i j k l indices m) matrix
  else
    -- lines 155-205: all four indices distinct
    if i = k ∨ i = l ∨ j = k ∨ j = l then .error .assertionError
    else
    (List.range (binomialInt ((N : ℤ) - 4) ((Q : ℤ) - 2))).foldlM (fun m n => do
      let q ← globalQ
      let indices := state_number_to_occupations n (q - 2)
      let indices ←
        if i < j ∧ j < k ∧ k < l then do
          let indices ← shift_starting_at_index indices i
          let indices ← shift_starting_at_index indices j
          let indices ← insert_index_and_shift indices k
          insert_index_and_shift indices l
        else if i < k ∧ k < j ∧ j < l then do
          let indices ← shift_starting_at_index indices i
          let indices ← insert_index_and_shift indices k
          let indices ← shift_starting_at_index indices j
          insert_index_and_shift indices l
        else if k < i ∧ i < j ∧ j < l then do
          let indices ← insert_index_and_shift indices k
          let indices ← shift_starting_at_index indices i
          let indices ← shift_starting_at_index indices j
          insert_index_and_shift indices l
        else if i < k ∧ k < l ∧ l < j then do
          let indices ← shift_starting_at_index indices i
          let indices ← insert_index_and_shift indices k
          let indices ← insert_index_and_shift indices l
          shift_starting_at_index indices j
        else if k < i ∧ i < l ∧ l < j then do
          let indices ← insert_index_and_shift indices k
          let indices ← shift_starting_at_index indices i
          let indices ← insert_index_and_shift indices l
          shift_starting_at_index indices j
        else if k < l ∧ l < i ∧ i < j then do
          let indices ← insert_index_and_shift indices k
          let indices ← insert_index_and_shift indices l
          let indices ← shift_starting_at_index indices i
          shift_starting_at_index indices j
        else pure indices
      add_term_and_state_contribution J Q dm i j k l indices m) matrix

/-- The term quadruples `(i, j, k, l)` enumerated by the nested loops
`for i in range(N): for j in range(i+1, N): for k in range(N):
for l in range(k+1, N)` (source lines 32-35 and 283-286), in loop order. -/
def quadruples (N : ℕ) : List (ℕ × ℕ × ℕ × ℕ) :=
  (List.range N).flatMap fun i =>
    ((List.range N).filter (fun j => i < j)).flatMap fun j =>
      (List.range N).flatMap fun k =>
        ((List.range N).filter (fun l => k < l)).map fun l => (i, j, k, l)

/-- Source lines 23-37 (`initialize_block_matrix`, the optimized builder):
zero the matrix, loop over all term quadruples accumulating contributions,
then scale every entry by the overall coefficient.  The source computes the
coefficient as `1./pow(2.*N, 3./2.)*4.` in IEEE floating point (line 29); the
embedding takes that scalar as the abstract parameter `co`. -/
def init_block_matrix {K : Type} [CommRing K] (co : K) (N Q : ℕ)
    (J : DisorderParameter K) : Except PyError (Mat K) := do
  let dm := dim N Q
  let m ← (quadruples N).foldlM
    (fun m q => add_hamiltonian_term_contribution J N Q dm q.1 q.2.1 q.2.2.1 q.2.2.2 m)
    (fun _ _ => (0 : K))
  pure (fun r c => co * m r c)

/-- Source lines 287-299, the body of the naive builder's innermost loop.
`bra = self.act_with_c_operators(i, j, k, l, ket)` mutates the per-`ket_n`
state object in place, so the (possibly zeroed) mutated object is what the
next quadruple's iteration sees — the embedding threads it through the fold
state.  On a nonzero bra the charge and rank asserts run, then
`matrix[bra_n, ket_n] += J.elem(i,j,k,l) * complex(bra.coefficient)`
(here `ket_n` is the outer loop's integer, not read from the state object). -/
def naive_term_step {K : Type} [CommRing K] (J : DisorderParameter K)
    (Q dm ket_n : ℕ) (i j k l : ℕ)
    (st : BasisState × Mat K) : Except PyError (BasisState × Mat K) :=
  let bra := act_with_c_operators i j k l st.1
  if bra.is_zero then .ok (bra, st.2)
  else if bra.charge = Q then
    let bra_n := bra.get_state_number
    if bra_n < dm then
      .ok (bra, matUpdate st.2 bra_n ket_n (J i j k l * (bra.coefficient : K)))
    else .error .assertionError
  else .error .assertionError

/-- The naive builder's term sum before the global coefficient is applied:
for every ket rank, reconstruct the ket and fold every term quadruple over it
(source lines 278-299).  This is the "after all terms are summed" matrix in
the spec's words (spec §4.3), against which claim C5 compares the full
builder. -/
def naive_presum {K : Type} [CommRing K] (N Q : ℕ)
    (J : DisorderParameter K) : Except PyError (Mat K) :=
  (List.range (dim N Q)).foldlM (fun matrix ket_n => do
      let r ← (quadruples N).foldlM
        (fun st q => naive_term_step J Q (dim N Q) ket_n q.1 q.2.1 q.2.2.1 q.2.2.2 st)
        (BasisState.ofStateNumber ket_n Q, matrix)
      pure r.2)
    (fun _ _ => (0 : K))

/-- Source lines 269-300 (`initialize_block_matrix_naive_implementation`):
the reference builder — enumerate every ket rank, apply every term quadruple
to the (in-place mutated) ket state, accumulate, then scale every entry by
the overall coefficient (`self.matrix *= coefficient`, line 300), which like
line 29 is computed in floating point and abstracted here as `co`. -/
def init_block_matrix_naive {K : Type} [CommRing K] (co : K) (N Q : ℕ)
    (J : DisorderParameter K) : Except PyError (Mat K) := do
  let m ← (List.range (dim N Q)).foldlM (fun matrix ket_n => do
      let r ← (quadruples N).foldlM
        (fun st q => naive_term_step J Q (dim N Q) ket_n q.1 q.2.1 q.2.2.1 q.2.2.2 st)
        (BasisState.ofStateNumber ket_n Q, matrix)
      pure r.2)
    (fun _ _ => (0 : K))
  pure (fun r c => co * m r c)

/-- The observable state of a `KitaevHamiltonianBlock` object around
diagonalization (source lines 12-20, 228-260): sector `(N, Q)`, the assembled
matrix, the `diagonalized` flag, and the `evs` / `U` attributes, which do not
exist before `diagonalize` sets them (accessing a missing attribute raises
`AttributeError`, modelled by `Option`). -/
structure Block (K : Type) where
  N : ℕ
  Q : ℕ
  matrix : Mat K
  diagonalized : Bool
  evs : Option (ℕ → K)
  U : Option (Mat K)

/-- Source lines 228-240 (`diagonalize(full_diagonalization)`): a no-op when
`diagonalized` is already set; otherwise call the external eigensolver
(`LA.eig` for a full decomposition setting `evs` and `U`, `LA.eigvals` for
eigenvalues only) and set the flag.  The external Diagonalizer collaborator
(spec §2, §6 — numpy linalg) is abstracted as the parameters `eig` and
`eigvals`. -/
def diagonalize {K : Type} (eig : Mat K → (ℕ → K) × Mat K)
    (eigvals : Mat K → (ℕ → K)) (full_diagonalization : Bool)
    (b : Block K) : Block K :=
  if b.diagonalized then b
  else if full_diagonalization then
    { b with evs := some (eig b.matrix).1, U := some (eig b.matrix).2, diagonalized := true }
  else
    { b with evs := some (eigvals b.matrix), diagonalized := true }

/-- Source lines 245-247 (`eigenvalues()`): `assert self.diagonalized` then
return `self.evs` (AttributeError if the attribute was never set). -/
def eigenvalues {K : Type} (b : Block K) : Except PyError (ℕ → K) :=
  if b.diagonalized then
    match b.evs with
    | some w => .ok w
    | none => .error .attributeError
  else .error .assertionError

/-- Source lines 249-256 (`D_matrix()`): `assert self.diagonalized`, build a
zero matrix, then fill the diagonal with `self.evs(i)`.  `self.evs` is an
array, not a callable, so the first loop iteration raises `TypeError`; when
`dim() = 0` the loop body never runs and the empty zero matrix is returned. -/
def D_matrix {K : Type} [Zero K] (b : Block K) : Except PyError (Mat K) :=
  if b.diagonalized then
    if dim b.N b.Q = 0 then .ok (fun _ _ => 0)
    else
      match b.evs with
      | some _ => .error .typeError
      | none => .error .attributeError
  else .error .assertionError

/-- Source lines 258-260 (`U_matrix()`): `assert self.diagonalized` then
return `self.U` (AttributeError if `diagonalize` ran with
`full_diagonalization=False` and never set it). -/
def U_matrix {K : Type} (b : Block K) : Except PyError (Mat K) :=
  if b.diagonalized then
    match b.U with
    | some u => .ok u
    | none => .error .attributeError
  else .error .assertionError

/-! Concrete instances used by the closed theorems and witnesses. -/

/-- Constant disorder tensor with every element `1`. -/
def Jone : DisorderParameter ℤ := fun _ _ _ _ => 1

/-- The disorder tensor of the spec's concrete scenario (spec §8):
only `elem(0,1,0,1)` is nonzero, with value `1`. -/
def J019 : DisorderParameter ℤ := fun i j k l =>
  if i = 0 ∧ j = 1 ∧ k = 0 ∧ l = 1 then 1 else 0

/-- The all-zero matrix over `ℚ`. -/
def zeroMat : Mat ℤ := fun _ _ => 0

/-- A block on which `diagonalize` has not been called. -/
def blockEx : Block ℤ :=
  ⟨4, 2, zeroMat, false, none, none⟩

/-- Whether an `Except` value is a success. -/
def isOkE {ε α : Type} : Except ε α → Bool
  | .ok _ => true
  | .error _ => false

/-- The post-operator bra produced inside `add_term_and_state_contribution`
for a given term quadruple and index list: the operator applied to the fresh
basis state built from `indices`. -/
def term_bra (i j k l : ℕ) (indices : List ℕ) : BasisState :=
  act_with_c_operators i j k l (BasisState.ofIndices indices)

/-- The matrix written by `add_term_and_state_contribution Jone 2 6 0 1 2 3
[2,3] zeroMat`: a single accumulation at row and column `0`. -/
def mEx : Mat ℤ := matUpdate zeroMat 0 0 (Jone 0 1 2 3 * (-1 : ℤ))

/-! ## Theorems -/

/-- `x >>= (pure ∘ f)` is `Except.map f x`. -/
theorem except_bind_pure_eq_map {ε α β : Type} (f : α → β) (x : Except ε α) :
    (x >>= fun a => pure (f a) : Except ε β) = Except.map f x := by
  cases x <;> rfl

/-- The exact dimension of the sector `(62, 31)`. -/
theorem dim_62_31 : dim 62 31 = 465428353255261088 := by
  show Nat.choose 62 31 = _
  rw [Nat.choose_eq_factorial_div_factorial (by norm_num : (31 : ℕ) ≤ 62)]
  rfl

/-- C1: the claim says the optimized builder reproduces the naive builder's
matrix on every valid sector with `N ≥ 4`.  It does not: at `N = 4, Q = 2`
(for every coefficient scalar and every disorder tensor) the optimized
builder `initialize_block_matrix` raises `NameError` — its first term
quadruple `(0,1,0,1)` reaches source line 103, which reads the undefined bare
name `Q` — while the naive builder runs to completion and returns a matrix. -/
theorem claim_C1 :
    (∀ (co : ℤ) (J : DisorderParameter ℤ),
      init_block_matrix co 4 2 J = .error .nameError)
    ∧ isOkE (init_block_matrix_naive (1 : ℤ) 4 2 Jone) = true := by
  constructor
  · intro co J
    rfl
  · rfl

/-- C2: the claim says `shift_starting_at_index(indices, p)` increments every
element `≥ p` by 1 and inserts nothing.  The code instead raises
`AttributeError` on its first statement (`indices.begin()` — Python lists
have no `begin` method) and never modifies the list: on `[0]` with `p = 0`
it fails instead of producing `[1]`. -/
theorem claim_C2 :
    shift_starting_at_index [0] 0 = .error .attributeError := by
  rfl

/-- C3: the claim says `insert_index_and_shift(indices, p)` increments every
element `≥ p` by 1 and inserts `p` at its sorted position.  The code instead
raises `AttributeError` on `indices.begin()` (source line 64) and never
modifies the list: on `[1]` with `p = 0` it fails instead of producing
`[0, 2]`. -/
theorem claim_C3 :
    insert_index_and_shift [1] 0 = .error .attributeError := by
  rfl

/-- C4: the claim says `dim()` is the exact integer binomial coefficient,
computed with exact integer arithmetic rather than by truncating a
real-valued evaluation.  The code computes `int(scipy.special.binom(N, Q))`,
the truncation of a float64 value.  For the sector `(62, 31)` this cannot be
exact: `C(62,31) = 465428353255261088` exceeds `2^58`, yet it is not
divisible by `2^6`, so it is not of the form `m * 2^e` with `m < 2^53` and
hence equals no float64 value at all; `int` of whatever float64 `binom`
returns therefore differs from the exact `dim 62 31`. -/
theorem claim_C4 :
    dim 62 31 = 465428353255261088
    ∧ ∀ m e : ℕ, m < 2 ^ 53 → m * 2 ^ e ≠ dim 62 31 := by
  refine ⟨dim_62_31, ?_⟩
  intro m e hm heq
  rw [dim_62_31] at heq
  rcases Nat.lt_or_ge e 6 with he | he
  · have hpe : (2 : ℕ) ^ e ≤ 32 := by
      calc (2 : ℕ) ^ e ≤ 2 ^ 5 := Nat.pow_le_pow_right (by norm_num) (by omega)
        _ = 32 := by norm_num
    have h3 : m * 2 ^ e ≤ m * 32 := mul_le_mul_left' hpe m
    have h4 : m * 32 < 2 ^ 53 * 32 := mul_lt_mul_of_pos_right hm (by norm_num)
    have h5 : m * 2 ^ e < 2 ^ 53 * 32 := lt_of_le_of_lt h3 h4
    rw [heq] at h5
    norm_num at h5
  · have h6 : (2 : ℕ) ^ 6 ∣ m * 2 ^ e :=
      dvd_mul_of_dvd_right (pow_dvd_pow 2 he) m
    rw [heq] at h6
    norm_num at h6

/-- Witness for C4 at `m = 3, e = 2`. -/
theorem claim_C4_witness : 3 < 2 ^ 53 ∧ 3 * 2 ^ 2 ≠ dim 62 31 :=
  ⟨by norm_num, claim_C4.2 3 2 (by norm_num)⟩

/-- C5: the claim says both builders scale the summed matrix by the global
coefficient exactly once, after the term sum.  The naive builder does:
`initialize_block_matrix_naive_implementation` equals the term-sum matrix
(`naive_presum`) with every entry multiplied once by the coefficient.  The
optimized builder does not: it raises `NameError` (undefined bare `Q`)
during the term loop and never reaches its scaling statement, shown here at
`N = 4, Q = 2` with the zero disorder tensor. -/
theorem claim_C5 :
    (∀ (K : Type) [CommRing K], ∀ (co : K) (N Q : ℕ) (J : DisorderParameter K),
      init_block_matrix_naive co N Q J
        = Except.map (fun m => fun r c => co * m r c) (naive_presum N Q J))
    ∧ init_block_matrix (1 : ℤ) 4 2 (fun _ _ _ _ => 0) = .error .nameError := by
  constructor
  · intro K _ co N Q J
    show (naive_presum N Q J >>= fun m => pure (fun r c => co * m r c)) = _
    exact except_bind_pure_eq_map _ _
  · rfl

/-- C6: in both builders' accumulation code, a zero bra is skipped without
writing; a nonzero bra with charge other than `Q` makes the assembly fail
with `AssertionError` rather than write; a nonzero in-charge bra whose rank
is not below `dim` likewise fails; and any entry actually changed comes from
a nonzero bra of charge `Q` with rank in `[0, dim)`.  Stated for
`add_term_and_state_contribution` (used by the optimized builder, source
lines 47-59) and for the naive builder's inner loop body (source lines
289-297). -/
theorem claim_C6 :
    ∀ (K : Type) [CommRing K], ∀ (J : DisorderParameter K) (Q dm i j k l : ℕ)
      (indices : List ℕ) (matrix : Mat K) (ket : BasisState) (ket_n : ℕ),
      ((term_bra i j k l indices).is_zero = true →
        add_term_and_state_contribution J Q dm i j k l indices matrix = .ok matrix)
      ∧ ((term_bra i j k l indices).is_zero = false →
          (term_bra i j k l indices).charge ≠ Q →
        add_term_and_state_contribution J Q dm i j k l indices matrix
          = .error .assertionError)
      ∧ ((term_bra i j k l indices).is_zero = false →
          (term_bra i j k l indices).charge = Q →
          dm ≤ (term_bra i j k l indices).get_state_number →
        add_term_and_state_contribution J Q dm i j k l indices matrix
          = .error .assertionError)
      ∧ (∀ m', add_term_and_state_contribution J Q dm i j k l indices matrix = .ok m' →
          m' = matrix ∨
            ((term_bra i j k l indices).is_zero = false
              ∧ (term_bra i j k l indices).charge = Q
              ∧ (term_bra i j k l indices).get_state_number < dm))
      ∧ ((act_with_c_operators i j k l ket).is_zero = true →
        naive_term_step J Q dm ket_n i j k l (ket, matrix)
          = .ok (act_with_c_operators i j k l ket, matrix))
      ∧ ((act_with_c_operators i j k l ket).is_zero = false →
          (act_with_c_operators i j k l ket).charge ≠ Q →
        naive_term_step J Q dm ket_n i j k l (ket, matrix) = .error .assertionError)
      ∧ ((act_with_c_operators i j k l ket).is_zero = false →
          (act_with_c_operators i j k l ket).charge = Q →
          dm ≤ (act_with_c_operators i j k l ket).get_state_number →
        naive_term_step J Q dm ket_n i j k l (ket, matrix) = .error .assertionError)
      ∧ (∀ st', naive_term_step J Q dm ket_n i j k l (ket, matrix) = .ok st' →
          st'.2 = matrix ∨
            ((act_with_c_operators i j k l ket).is_zero = false
              ∧ (act_with_c_operators i j k l ket).charge = Q
              ∧ (act_with_c_operators i j k l ket).get_state_number < dm)) := by
  intro K _ J Q dm i j k l indices matrix ket ket_n
  refine ⟨?_, ?_, ?_, ?_, ?_, ?_, ?_, ?_⟩
  · intro hz
    simp [add_term_and_state_contribution, term_bra] at hz ⊢
    simp [hz]
  · intro hz hc
    simp [term_bra] at hz hc
    simp [add_term_and_state_contribution, hz, hc]
  · intro hz hc hr
    simp [term_bra] at hz hc hr
    simp [add_term_and_state_contribution, hz, hc, Nat.not_lt_of_ge hr]
  · intro m' h
    simp only [add_term_and_state_contribution] at h
    by_cases h1 : (act_with_c_operators i j k l (BasisState.ofIndices indices)).is_zero = true
    · left
      rw [if_pos h1] at h
      injection h with h'
      exact h'.symm
    · by_cases h2 : (act_with_c_operators i j k l (BasisState.ofIndices indices)).charge = Q
      · by_cases h3 :
          (act_with_c_operators i j k l (BasisState.ofIndices indices)).get_state_number < dm
        · right
          refine ⟨?_, h2, h3⟩
          simpa [term_bra] using h1
        · rw [if_neg h1, if_pos h2, if_neg h3] at h
          exact Except.noConfusion h
      · rw [if_neg h1, if_neg h2] at h
        exact Except.noConfusion h
  · intro hz
    simp [naive_term_step, hz]
  · intro hz hc
    simp [naive_term_step, hz, hc]
  · intro hz hc hr
    simp [naive_term_step, hz, hc, Nat.not_lt_of_ge hr]
  · intro st' h
    simp only [naive_term_step] at h
    by_cases h1 : (act_with_c_operators i j k l ket).is_zero = true
    · left
      rw [if_pos h1] at h
      injection h with h'
      rw [← h']
    · by_cases h2 : (act_with_c_operators i j k l ket).charge = Q
      · by_cases h3 : (act_with_c_operators i j k l ket).get_state_number < dm
        · right
          exact ⟨by simpa using h1, h2, h3⟩
        · rw [if_neg h1, if_pos h2, if_neg h3] at h
          exact Except.noConfusion h
      · rw [if_neg h1, if_neg h2] at h
        exact Except.noConfusion h

/-- Witness for C6: a nonzero bra (`{0,1}`, charge 2) against sector charge
`Q = 3` makes the accumulation fail with `AssertionError`. -/
theorem claim_C6_witness :
    add_term_and_state_contribution Jone 3 6 0 1 0 1 [0, 1] zeroMat
      = .error .assertionError :=
  (claim_C6 ℤ Jone 3 6 0 1 0 1 [0, 1] zeroMat (BasisState.ofIndices [0, 1]) 0).2.1
    (by rfl) (by decide)

/-- C7: `diagonalize` is idempotent — the first call leaves the
`diagonalized` flag true, and a second call (same `full` flag) returns the
state of the first call unchanged, eigenvalues and eigenvectors included. -/
theorem claim_C7 :
    ∀ (K : Type) (eig : Mat K → (ℕ → K) × Mat K) (eigvals : Mat K → ℕ → K)
      (full : Bool) (b : Block K),
      (diagonalize eig eigvals full b).diagonalized = true
      ∧ diagonalize eig eigvals full (diagonalize eig eigvals full b)
          = diagonalize eig eigvals full b := by
  intro K eig eigvals full b
  have h1 : (diagonalize eig eigvals full b).diagonalized = true := by
    unfold diagonalize
    by_cases h : b.diagonalized
    · simp [h]
    · by_cases hf : full <;> simp [h, hf]
  have h2 : ∀ b' : Block K, b'.diagonalized = true →
      diagonalize eig eigvals full b' = b' := by
    intro b' hb
    unfold diagonalize
    simp [hb]
  exact ⟨h1, h2 _ h1⟩

/-- C8: on a block whose `diagonalized` flag is not set, each of the three
spectrum accessors fails with the precondition assertion instead of
returning a value. -/
theorem claim_C8 :
    ∀ (K : Type) [Zero K], ∀ b : Block K, b.diagonalized = false →
      eigenvalues b = .error .assertionError
      ∧ D_matrix b = .error .assertionError
      ∧ U_matrix b = .error .assertionError := by
  intro K _ b h
  refine ⟨?_, ?_, ?_⟩ <;> simp [eigenvalues, D_matrix, U_matrix, h]

/-- Witness for C8 on a concrete undiagonalized block. -/
theorem claim_C8_witness :
    eigenvalues blockEx = .error .assertionError
    ∧ D_matrix blockEx = .error .assertionError
    ∧ U_matrix blockEx = .error .assertionError :=
  claim_C8 ℤ blockEx rfl

/-- C9: the claim says that at `N = 4, Q = 2` with the disorder tensor whose
only nonzero element is `elem(0,1,0,1) = 1` the optimized builder assembles a
matrix with a single nonzero diagonal entry.  It does not: for every
coefficient scalar the builder raises `NameError` (undefined bare name `Q`,
source line 103) on that very input and produces no matrix at all. -/
theorem claim_C9 :
    ∀ co : ℤ, init_block_matrix co 4 2 J019 = .error .nameError := by
  intro co
  rfl

/-- C10: `act_with_c_operators` mutates its ket argument in place and returns
the same object, so inside `add_term_and_state_contribution` the column index
`ket.get_state_number()` is read from the post-operator state: every matrix
entry the call changes sits in the column of the post-operator state's rank.
Concretely, for term `(0,1,2,3)` on the basis state `{2,3}` the original ket
has rank 5 but the post-operator state has rank 0, so the write lands in
column 0, not column 5. -/
theorem claim_C10 :
    (∀ (K : Type) [CommRing K], ∀ (J : DisorderParameter K) (Q dm i j k l : ℕ)
        (indices : List ℕ) (matrix m' : Mat K),
      add_term_and_state_contribution J Q dm i j k l indices matrix = .ok m' →
      ∀ r c, m' r c ≠ matrix r c →
        c = (act_with_c_operators i j k l (BasisState.ofIndices indices)).get_state_number)
    ∧ (BasisState.ofIndices [2, 3]).get_state_number = 5
    ∧ (act_with_c_operators 0 1 2 3 (BasisState.ofIndices [2, 3])).get_state_number = 0 := by
  refine ⟨?_, by rfl, by rfl⟩
  intro K _ J Q dm i j k l indices matrix m' h r c hne
  simp only [add_term_and_state_contribution] at h
  by_cases h1 : (act_with_c_operators i j k l (BasisState.ofIndices indices)).is_zero = true
  · rw [if_pos h1] at h
    injection h with h'
    rw [← h'] at hne
    exact absurd rfl hne
  · by_cases h2 : (act_with_c_operators i j k l (BasisState.ofIndices indices)).charge = Q
    · by_cases h3 :
        (act_with_c_operators i j k l (BasisState.ofIndices indices)).get_state_number < dm
      · rw [if_neg h1, if_pos h2, if_pos h3] at h
        injection h with h'
        rw [← h'] at hne
        simp only [matUpdate] at hne
        by_cases hc : r = (act_with_c_operators i j k l (BasisState.ofIndices indices)).get_state_number
            ∧ c = (act_with_c_operators i j k l (BasisState.ofIndices indices)).get_state_number
        · exact hc.2
        · rw [if_neg hc] at hne
          exact absurd rfl hne
      · rw [if_neg h1, if_pos h2, if_neg h3] at h
        exact Except.noConfusion h
    · rw [if_neg h1, if_neg h2] at h
      exact Except.noConfusion h

/-- Witness for C10: applying the changed-entry characterization at term
`(0,1,2,3)` on `{2,3}` over `ℤ`. -/
theorem claim_C10_witness :
    (0 : ℕ) = (act_with_c_operators 0 1 2 3 (BasisState.ofIndices [2, 3])).get_state_number :=
  claim_C10.1 ℤ Jone 2 6 0 1 2 3 [2, 3] zeroMat mEx (by rfl) 0 0 (by decide)

end Syk
